import Mathlib

/-
  Verification of the incremental stream-rendering engine of glow
  (douglas-larocca/glow).

  Strings are modelled as `List Char`.  Go's `regexp.MatchString` calls are
  translated into executable Lean matchers, specialised to the concrete
  regular expressions appearing in the source (src/unnamed/part_001 lines
  375-385 and the identical copy in part_000 lines 289-299).
-/

/-- RE2 character class `\s`, i.e. `[\t\n\f\r ]` (Go `regexp`). -/
def isRegexSpace (c : Char) : Bool :=
  c = ' ' || c = '\t' || c = '\n' || c = '\x0c' || c = '\r'

/-- Go `unicode.IsSpace`: the White_Space property, used by `strings.TrimSpace`. -/
def isUnicodeSpace (c : Char) : Bool :=
  c = ' ' || c = '\t' || c = '\n' || c = '\x0b' || c = '\x0c' || c = '\r' ||
  c = '\x85' || c = '\xa0' || c = Char.ofNat 0x1680 ||
  (0x2000 ≤ c.toNat && c.toNat ≤ 0x200A) ||
  c = Char.ofNat 0x2028 || c = Char.ofNat 0x2029 ||
  c = Char.ofNat 0x202F || c = Char.ofNat 0x205F || c = Char.ofNat 0x3000

/-- Go `strings.TrimSpace`: drop leading and trailing Unicode white space. -/
def trimSpace (s : List Char) : List Char :=
  ((s.dropWhile isUnicodeSpace).reverse.dropWhile isUnicodeSpace).reverse

/-- Go `strings.Contains`: does `s` contain `pat` as a contiguous substring? -/
def containsSub (pat : List Char) : List Char → Bool
  | [] => pat.isEmpty
  | c :: rest => pat.isPrefixOf (c :: rest) || containsSub pat rest

/-- The backquote character (0x60). -/
def backquote : Char := Char.ofNat 96

/-- A bare code-fence line: three backquotes. -/
def fence : List Char := [backquote, backquote, backquote]

/-- Helper for the reference-link and footnote regexes: after the opening
bracket, `.*?\]:\s+` matches somewhere at the front of the remaining text
(`.` never matches a newline in RE2). -/
def scanRefClose : List Char → Bool
  | [] => false
  | ']' :: ':' :: c :: rest => isRegexSpace c || scanRefClose (':' :: c :: rest)
  | c :: rest => (c != '\n') && scanRefClose rest

/-- Go regex matcher for a reference-link definition. -/
def matchRefLink : List Char → Bool
  | '[' :: rest => scanRefClose rest
  | _ => false

/-- Go regex matcher for a footnote definition. -/
def matchFootnote : List Char → Bool
  | '[' :: '^' :: rest => scanRefClose rest
  | _ => false

/-- Count the leading occurrences of a character. -/
def countLeading (x : Char) : List Char → Nat
  | [] => 0
  | c :: rest => if c = x then countLeading x rest + 1 else 0

/-- Go regex matcher for an ATX heading: one to six hash marks followed by
white space. -/
def matchHeading (t : List Char) : Bool :=
  let m := countLeading '#' t
  if 1 ≤ m ∧ m ≤ 6 then
    match t.drop m with
    | c :: _ => isRegexSpace c
    | [] => false
  else false

/-- After a first repetition mark has been seen: skip the spaces of the
current group one at a time and count each further mark. -/
def hrTail (mark : Char) : List Char → Nat
  | [] => 0
  | c :: rest =>
    if isRegexSpace c then hrTail mark rest
    else if c = mark then hrTail mark rest + 1
    else 0

/-- Count the leading repetitions of the group mark-then-spaces, as in the
three horizontal-rule regexes (three or more repetitions match). -/
def hrCount (mark : Char) : List Char → Nat
  | [] => 0
  | c :: rest => if c = mark then hrTail mark rest + 1 else 0

/-- Scan for a later pipe character with no newline before it. -/
def pipeScan : List Char → Bool
  | [] => false
  | c :: rest => if c = '|' then true else (c != '\n') && pipeScan rest

/-- Go regex matcher for a table line: a pipe, anything without a newline,
another pipe. -/
def matchTable : List Char → Bool
  | '|' :: rest => pipeScan rest
  | _ => false

/-- After one or more digits: a dot followed by white space (the numbered
list-item alternative). -/
def digitsDotSpace : List Char → Bool
  | [] => false
  | c :: rest =>
    if c.isDigit then digitsDotSpace rest
    else if c = '.' then
      match rest with
      | d :: _ => isRegexSpace d
      | [] => false
    else false

/-- Go regex matcher for a list-item marker: optional spaces, then a bullet,
dash or numbered marker followed by white space. -/
def matchListItem (t : List Char) : Bool :=
  match t.dropWhile isRegexSpace with
  | '*' :: c :: _ => isRegexSpace c
  | '-' :: c :: _ => isRegexSpace c
  | c :: rest => c.isDigit && digitsDotSpace (c :: rest)
  | [] => false

/-- The ordered pattern table of shouldRenderUpdate (part_001 lines 371-392):
true when the trimmed current line matches any of the eleven regexes. -/
def matchesAnyPattern (t : List Char) : Bool :=
  matchRefLink t || matchFootnote t ||
  List.isPrefixOf ['<', '!', '-', '-'] t ||
  containsSub ['-', '-', '>'] t ||
  matchHeading t ||
  decide (3 ≤ hrCount '*' t) ||
  decide (3 ≤ hrCount '-' t) ||
  decide (3 ≤ hrCount '_' t) ||
  List.isPrefixOf [':', ':', ':'] t ||
  matchTable t ||
  matchListItem t

/-- The backward fence scan of shouldRenderUpdate (part_001 lines 397-405):
the Go loop runs the index i from len-2 down to 0; here the fuel n+1 stands
for the iteration that reads index n.  List accesses go through `getElem?`
so that an out-of-bounds read would surface as `none`. -/
def fenceLoop (previousLines : List (List Char)) : Nat → Option Bool
  | 0 => some true
  | n + 1 =>
    match previousLines[n]? with
    | none => none
    | some l =>
      if trimSpace l = fence then some false
      else if fence.isPrefixOf (trimSpace l) then some true
      else fenceLoop previousLines n

/-- shouldRenderUpdate (part_001 lines 364-419, identical in part_000 lines
278-333).  The caller appends the current line to previousLines before the
call.  Fallible list indexing is made explicit: `none` would mean an
out-of-bounds access in the Go original. -/
def shouldRenderUpdate (currentLine : List Char) (previousLines : List (List Char)) :
    Option Bool :=
  if previousLines.length % 10 = 0 then some true
  else if matchesAnyPattern (trimSpace currentLine) then some true
  else if trimSpace currentLine = fence then
    fenceLoop previousLines (previousLines.length - 1)
  else if 2 ≤ previousLines.length then
    match previousLines[previousLines.length - 2]? with
    | none => none
    | some pl =>
      if (trimSpace pl = [] ∧ List.isPrefixOf ['|'] currentLine)
          ∨ (List.isPrefixOf ['|'] (trimSpace pl) ∧ currentLine = []) then some true
      else some false
  else some false

/-- The two update modes of the diff-patch step. -/
inductive PatchMode
  | FullRepaint
  | Append
deriving DecidableEq, Repr

/-- Result of the diff-patch step: an update mode and the text to write. -/
structure PatchResult where
  mode : PatchMode
  payload : List Char
deriving DecidableEq, Repr

/-- The diff-patch step of renderIncrementalFromStdin (part_001 lines
562-576, part_000 lines 398-414): if the previous render is a literal
front part of the new one, append only the remainder (strings.TrimPrefix);
otherwise clear and repaint in full. -/
def patchStep (previous next : List Char) : PatchResult :=
  if previous.isPrefixOf next then
    { mode := PatchMode.Append, payload := next.drop previous.length }
  else
    { mode := PatchMode.FullRepaint, payload := next }

/-
  Terminal surface (src/spinner.go lines 606-754).  Writes to the output
  destination are recorded as events; I/O failures of the environment are
  supplied through an oracle of Boolean flags, one per fallible call in
  the source.  A failed write still leaves its event in the trace: the
  bytes were handed to the destination before the error came back.
-/

/-- One observable effect on the output destination. -/
inductive TermEvent
  | wrote (s : List Char)
  | restoredMode
deriving DecidableEq, Repr

/-- The terminal buffer manager termbuf (spinner.go lines 607-612).  The
opaque saved mode originalTerm is represented implicitly: restoring it is
the `restoredMode` event. -/
structure Termbuf where
  isActive : Bool
  isTerminal : Bool
  events : List TermEvent
deriving DecidableEq, Repr

/-- Which of the fallible calls of the source fail in this run. -/
structure FailureOracle where
  makeRaw : Bool
  enterWrite : Bool
  clearWrite : Bool
  wrapWrite : Bool
  hideWrite : Bool
  showWrite : Bool
  exitWrite : Bool
  restore : Bool
  altWrite : Bool
  finalWrite : Bool
deriving DecidableEq, Repr

/-- The errors the terminal surface can report, one per fallible call. -/
inductive TermErr
  | makeRawFailed
  | enterAltFailed
  | clearFailed
  | wrapFailed
  | hideCursorFailed
  | showCursorFailed
  | exitAltFailed
  | restoreFailed
  | altWriteFailed
  | finalWriteFailed
deriving DecidableEq, Repr

/-- The escape character. -/
def escChar : Char := Char.ofNat 27

/-- CSI ? 1049 h: enter the alternate screen buffer. -/
def seqEnterAlt : List Char := [escChar, '[', '?', '1', '0', '4', '9', 'h']

/-- CSI 2 J CSI H: clear the screen and home the cursor. -/
def seqClearHome : List Char := [escChar, '[', '2', 'J', escChar, '[', 'H']

/-- CSI ? 7 h: enable line wrapping. -/
def seqWrap : List Char := [escChar, '[', '?', '7', 'h']

/-- CSI ? 25 l: hide the cursor. -/
def seqHideCursor : List Char := [escChar, '[', '?', '2', '5', 'l']

/-- CSI ? 25 h: show the cursor. -/
def seqShowCursor : List Char := [escChar, '[', '?', '2', '5', 'h']

/-- CSI ? 1049 l: leave the alternate screen buffer. -/
def seqExitAlt : List Char := [escChar, '[', '?', '1', '0', '4', '9', 'l']

/-- Record a write of `s` to the destination. -/
def logWrite (tb : Termbuf) (s : List Char) : Termbuf :=
  { tb with events := tb.events ++ [TermEvent.wrote s] }

/-- newTermbuf (spinner.go lines 615-625): never active at construction. -/
def newTermbuf (isTerminal : Bool) : Termbuf :=
  { isActive := false, isTerminal := isTerminal, events := [] }

/-- enterAltScreen (spinner.go lines 628-672).  The GetSize/Setenv block
only mutates environment variables and is omitted.  Each escape write may
fail; the function returns at the first failure. -/
def enterAltScreen (tb : Termbuf) (o : FailureOracle) : Termbuf × Option TermErr :=
  if ¬tb.isTerminal ∨ tb.isActive then (tb, none)
  else if o.makeRaw then (tb, some TermErr.makeRawFailed)
  else
    let tb1 := logWrite tb seqEnterAlt
    if o.enterWrite then (tb1, some TermErr.enterAltFailed)
    else
      let tb2 := logWrite tb1 seqClearHome
      if o.clearWrite then (tb2, some TermErr.clearFailed)
      else
        let tb3 := logWrite tb2 seqWrap
        if o.wrapWrite then (tb3, some TermErr.wrapFailed)
        else
          let tb4 := logWrite tb3 seqHideCursor
          if o.hideWrite then (tb4, some TermErr.hideCursorFailed)
          else ({ tb4 with isActive := true }, none)

/-- clear (spinner.go lines 675-679): the write's result is discarded. -/
def clear (tb : Termbuf) : Termbuf :=
  if tb.isTerminal ∧ tb.isActive then logWrite tb seqClearHome else tb

/-- exitAltScreen (spinner.go lines 682-704): show cursor, leave the
alternate buffer, restore the saved mode; the function returns at the
first failing step, and only a fully successful run clears isActive. -/
def exitAltScreen (tb : Termbuf) (o : FailureOracle) : Termbuf × Option TermErr :=
  if ¬tb.isTerminal ∨ ¬tb.isActive then (tb, none)
  else
    let tb1 := logWrite tb seqShowCursor
    if o.showWrite then (tb1, some TermErr.showCursorFailed)
    else
      let tb2 := logWrite tb1 seqExitAlt
      if o.exitWrite then (tb2, some TermErr.exitAltFailed)
      else
        let tb3 := { tb2 with events := tb2.events ++ [TermEvent.restoredMode] }
        if o.restore then (tb3, some TermErr.restoreFailed)
        else ({ tb3 with isActive := false }, none)

/-- Go strings.ReplaceAll of a line feed by carriage return plus line feed,
as inlined in writeToAlt and finalOutput (spinner.go lines 727 and 742). -/
def toCRLF : List Char → List Char
  | [] => []
  | '\n' :: rest => '\r' :: '\n' :: toCRLF rest
  | c :: rest => c :: toCRLF rest

/-- writeToAlt (spinner.go lines 721-731): no-op unless active on a
terminal; otherwise write the content with line feeds expanded. -/
def writeToAlt (tb : Termbuf) (content : List Char) (o : FailureOracle) :
    Termbuf × Option TermErr :=
  if ¬tb.isTerminal ∨ ¬tb.isActive then (tb, none)
  else
    (logWrite tb (toCRLF content),
     if o.altWrite then some TermErr.altWriteFailed else none)

/-- finalOutput (spinner.go lines 734-754): when active on a terminal,
first leave the alternate screen, then write the newline-expanded content;
otherwise write the content unmodified. -/
def finalOutput (tb : Termbuf) (content : List Char) (o : FailureOracle) :
    Termbuf × Option TermErr :=
  if tb.isTerminal ∧ tb.isActive then
    match exitAltScreen tb o with
    | (tb1, some e) => (tb1, some e)
    | (tb1, none) =>
      (logWrite tb1 (toCRLF content),
       if o.finalWrite then some TermErr.finalWriteFailed else none)
  else
    (logWrite tb content,
     if o.finalWrite then some TermErr.finalWriteFailed else none)

/-- Go strings.ReplaceAll of carriage return plus line feed by a bare line
feed, the first statement of normalizeLineEndings (spinner.go line 710). -/
def replaceCRLF : List Char → List Char
  | [] => []
  | '\r' :: '\n' :: rest => '\n' :: replaceCRLF rest
  | c :: rest => c :: replaceCRLF rest

/-- Go strings.ReplaceAll of three line feeds by two, one pass of the
collapsing loop of normalizeLineEndings (spinner.go line 714): at each
position, when the pattern starts there emit the replacement and skip it,
otherwise emit the character and move on. -/
def collapsePass : List Char → List Char
  | [] => []
  | [c] => [c]
  | [c, d] => [c, d]
  | c :: d :: e :: rest =>
    if c = '\n' ∧ d = '\n' ∧ e = '\n' then '\n' :: '\n' :: collapsePass rest
    else c :: collapsePass (d :: e :: rest)

/-- Three consecutive line feeds, the pattern of the collapsing loop. -/
def tripleNL : List Char := ['\n', '\n', '\n']

/-- A collapsing pass never lengthens the text. -/
theorem collapsePass_length_le (s : List Char) :
    (collapsePass s).length ≤ s.length := by
  induction s using collapsePass.induct with
  | case1 => simp [collapsePass]
  | case2 c => simp [collapsePass]
  | case3 c d => simp [collapsePass]
  | case4 c d e rest h ih =>
    simp only [collapsePass, if_pos h, List.length_cons]
    omega
  | case5 c d e rest h ih =>
    simp only [collapsePass, if_neg h, List.length_cons] at *
    omega

/-- One collapsing pass removes at least one character when the pattern
occurs, so the loop of normalizeLineEndings terminates. -/
theorem collapsePass_length_lt (s : List Char) (h : containsSub tripleNL s = true) :
    (collapsePass s).length < s.length := by
  induction s using collapsePass.induct with
  | case1 => simp [containsSub, tripleNL] at h
  | case2 c => simp [containsSub, tripleNL, List.isPrefixOf] at h
  | case3 c d => simp [containsSub, tripleNL, List.isPrefixOf] at h
  | case4 c d e rest hc ih =>
    have := collapsePass_length_le rest
    simp only [collapsePass, if_pos hc, List.length_cons]
    omega
  | case5 c d e rest hc ih =>
    have hr : containsSub tripleNL (d :: e :: rest) = true := by
      simp only [containsSub, tripleNL, List.isPrefixOf, List.cons_beq_cons,
        Bool.or_eq_true, Bool.and_eq_true, beq_iff_eq] at h ⊢
      rcases h with ⟨h1, h2, h3, _⟩ | hrest
      · exact absurd ⟨h1.symm, h2.symm, h3.symm⟩ hc
      · exact hrest
    have := ih hr
    simp only [collapsePass, if_neg hc, List.length_cons] at *
    omega

/-- The collapsing loop of normalizeLineEndings (spinner.go lines 713-715). -/
def collapseLoop (s : List Char) : List Char :=
  if h : containsSub tripleNL s = true then collapseLoop (collapsePass s) else s
termination_by s.length
decreasing_by
  exact collapsePass_length_lt s h

/-- normalizeLineEndings (spinner.go lines 708-718). -/
def normalizeLineEndings (text : List Char) : List Char :=
  collapseLoop (replaceCRLF text)

/-- A list is a prefix of itself, in Boolean form. -/
theorem isPrefixOf_self (l : List Char) : l.isPrefixOf l = true :=
  List.isPrefixOf_iff_prefix.mpr (List.prefix_refl l)

/-- The backward fence scan computes the verdict of the first fence-like
line found scanning from the second-most-recent entry backwards: false if
its trimmed form is exactly the bare fence, true if it merely starts with
the fence, and true when no fence-like line exists. -/
theorem fenceLoop_find (prev : List (List Char)) (n : Nat) (hn : n ≤ prev.length) :
    fenceLoop prev n =
      some (match (prev.take n).reverse.find?
              (fun l => fence.isPrefixOf (trimSpace l)) with
            | none => true
            | some l => decide (trimSpace l ≠ fence)) := by
  induction n with
  | zero => simp [fenceLoop]
  | succ n ih =>
    have hlt : n < prev.length := hn
    have hget : prev[n]? = some prev[n] := List.getElem?_eq_getElem hlt
    have htake : (prev.take (n + 1)).reverse = prev[n] :: (prev.take n).reverse := by
      rw [List.take_succ, hget]
      simp
    rw [htake]
    simp only [fenceLoop, hget]
    by_cases h1 : trimSpace prev[n] = fence
    · rw [List.find?_cons_of_pos _ (by simp [h1, isPrefixOf_self])]
      simp [h1]
    · by_cases h2 : fence.isPrefixOf (trimSpace prev[n]) = true
      · rw [List.find?_cons_of_pos _ (by simpa using h2)]
        simp [h1, h2]
      · rw [List.find?_cons_of_neg _ (by simpa using h2)]
        rw [if_neg h1, if_neg (by simpa using h2)]
        exact ih (le_of_lt hlt)

/-- C1: if the new render extends the previous one, the diff-patch step
emits Append whose payload is exactly the new render with the previous one
removed from the front, so previous ++ payload = next. -/
theorem patchStep_append_of_extension (previous next : List Char)
    (h : previous.isPrefixOf next = true) :
    (patchStep previous next).mode = PatchMode.Append ∧
    (patchStep previous next).payload = next.drop previous.length ∧
    previous ++ (patchStep previous next).payload = next := by
  obtain ⟨t, ht⟩ := List.isPrefixOf_iff_prefix.mp h
  refine ⟨by simp [patchStep, h], by simp [patchStep, h], ?_⟩
  simp only [patchStep, h, if_pos]
  rw [← ht, List.drop_left]

/-- Witness for C1 at a concrete extension pair. -/
theorem patchStep_append_of_extension_witness :
    List.isPrefixOf ['a'] ['a', 'b'] = true ∧
    ((patchStep ['a'] ['a', 'b']).mode = PatchMode.Append ∧
     (patchStep ['a'] ['a', 'b']).payload = List.drop 1 ['a', 'b'] ∧
     ['a'] ++ (patchStep ['a'] ['a', 'b']).payload = ['a', 'b']) :=
  ⟨by decide, patchStep_append_of_extension ['a'] ['a', 'b'] (by decide)⟩

/-- C2 counterexample: with history made of a bare fence line followed by
the bare fence current line, exactly one fence line precedes the current
one (an odd number), yet shouldRenderUpdate returns false. -/
theorem shouldRenderUpdate_fence_parity_counterexample :
    (List.countP (fun l => fence.isPrefixOf (trimSpace l))
        (List.take 1 [fence, fence])) % 2 = 1 ∧
    shouldRenderUpdate fence [fence, fence] = some false := by
  constructor
  · decide
  · decide

/-- C2 amended: for a bare triple-backquote current line (off the mod-10
rule), the verdict is decided by the nearest preceding fence-like line in
the backward scan: false when its trimmed form is exactly the bare fence,
true when it starts with the fence and carries more text, and true (the
undetermined default) when no fence-like line precedes. -/
theorem shouldRenderUpdate_fence_nearest (line : List Char) (prev : List (List Char))
    (h10 : prev.length % 10 ≠ 0) (hf : trimSpace line = fence) :
    shouldRenderUpdate line prev =
      some (match (prev.take (prev.length - 1)).reverse.find?
              (fun l => fence.isPrefixOf (trimSpace l)) with
            | none => true
            | some l => decide (trimSpace l ≠ fence)) := by
  have hpat : matchesAnyPattern (trimSpace line) = false := by
    rw [hf]; decide
  rw [shouldRenderUpdate, if_neg h10, hpat, if_neg (by simp), if_pos hf]
  exact fenceLoop_find prev (prev.length - 1) (Nat.sub_le _ _)

/-- Witness for C2 amended: the current bare fence closes a block opened by
a fence with an info string, triggering a render. -/
theorem shouldRenderUpdate_fence_nearest_witness :
    shouldRenderUpdate fence [[backquote, backquote, backquote, 'g', 'o'], fence] =
      some true := by
  have h := shouldRenderUpdate_fence_nearest fence
    [[backquote, backquote, backquote, 'g', 'o'], fence] (by decide) (by decide)
  rw [h]
  decide

/-- C4: whenever the history length is a multiple of ten (zero included),
shouldRenderUpdate returns true regardless of content. -/
theorem shouldRenderUpdate_mod10 (line : List Char) (prev : List (List Char))
    (h : prev.length % 10 = 0) : shouldRenderUpdate line prev = some true := by
  rw [shouldRenderUpdate, if_pos h]

/-- Witness for C4 at the empty history. -/
theorem shouldRenderUpdate_mod10_witness :
    ([] : List (List Char)).length % 10 = 0 ∧
    shouldRenderUpdate ['x'] [] = some true :=
  ⟨by decide, shouldRenderUpdate_mod10 ['x'] [] (by decide)⟩

/-- C5: feeding the five lines of the scenario one at a time, each appended
to the history before evaluation, the trigger fires at the heading, the
table row and the blank line after it, and stays quiet at the two plain
lines. -/
theorem shouldRenderUpdate_scenario :
    shouldRenderUpdate ['#', ' ', 'A'] [['#', ' ', 'A']] = some true ∧
    shouldRenderUpdate ['p', 'a', 'r', 'a']
      [['#', ' ', 'A'], ['p', 'a', 'r', 'a']] = some false ∧
    shouldRenderUpdate ['|', ' ', 'a', ' ', '|', ' ', 'b', ' ', '|']
      [['#', ' ', 'A'], ['p', 'a', 'r', 'a'],
       ['|', ' ', 'a', ' ', '|', ' ', 'b', ' ', '|']] = some true ∧
    shouldRenderUpdate []
      [['#', ' ', 'A'], ['p', 'a', 'r', 'a'],
       ['|', ' ', 'a', ' ', '|', ' ', 'b', ' ', '|'], []] = some true ∧
    shouldRenderUpdate ['m', 'o', 'r', 'e']
      [['#', ' ', 'A'], ['p', 'a', 'r', 'a'],
       ['|', ' ', 'a', ' ', '|', ' ', 'b', ' ', '|'], [],
       ['m', 'o', 'r', 'e']] = some false := by
  refine ⟨by decide, by decide, by decide, by decide, by decide⟩

/-- C6: the diff-patch step of a render against itself takes the Append
branch with an empty payload: nothing is written. -/
theorem patchStep_idempotent (x : List Char) :
    patchStep x x = { mode := PatchMode.Append, payload := [] } := by
  simp [patchStep, isPrefixOf_self, List.drop_length]

/-- An oracle under which every environment call succeeds. -/
def noFailures : FailureOracle :=
  { makeRaw := false, enterWrite := false, clearWrite := false, wrapWrite := false,
    hideWrite := false, showWrite := false, exitWrite := false, restore := false,
    altWrite := false, finalWrite := false }

/-- A surface that is active on a terminal, with an empty trace. -/
def tbActiveTerminal : Termbuf :=
  { isActive := true, isTerminal := true, events := [] }

/-- The three teardown events of a fully successful exitAltScreen, in
source order. -/
def teardownEvents : List TermEvent :=
  [TermEvent.wrote seqShowCursor, TermEvent.wrote seqExitAlt, TermEvent.restoredMode]

/-- C3 counterexample: when the show-cursor write fails, exitAltScreen
returns at once: the leave-alternate-buffer write and the mode restore are
never attempted, so teardown is not best-effort. -/
theorem exitAltScreen_not_best_effort :
    (exitAltScreen tbActiveTerminal { noFailures with showWrite := true }).1.events
        = [TermEvent.wrote seqShowCursor] ∧
    (exitAltScreen tbActiveTerminal { noFailures with showWrite := true }).2
        = some TermErr.showCursorFailed ∧
    TermEvent.restoredMode ∉
      (exitAltScreen tbActiveTerminal { noFailures with showWrite := true }).1.events ∧
    TermEvent.wrote seqExitAlt ∉
      (exitAltScreen tbActiveTerminal { noFailures with showWrite := true }).1.events := by
  refine ⟨by decide, by decide, by decide, by decide⟩

/-- C3 amended: exitAltScreen performs show-cursor, leave-alternate-buffer
and mode-restore in that order, but it is fail-fast: the first failing
step ends the call with its error and the remaining steps are not
attempted; only a fully successful run performs all three and deactivates
the surface. -/
theorem exitAltScreen_fail_fast (tb : Termbuf) (o : FailureOracle)
    (ht : tb.isTerminal = true) (ha : tb.isActive = true) :
    (o.showWrite = true →
      exitAltScreen tb o = (logWrite tb seqShowCursor, some TermErr.showCursorFailed)) ∧
    (o.showWrite = false → o.exitWrite = true →
      exitAltScreen tb o =
        (logWrite (logWrite tb seqShowCursor) seqExitAlt, some TermErr.exitAltFailed)) ∧
    (o.showWrite = false → o.exitWrite = false → o.restore = true →
      exitAltScreen tb o =
        ({ tb with events := tb.events ++ teardownEvents },
         some TermErr.restoreFailed)) ∧
    (o.showWrite = false → o.exitWrite = false → o.restore = false →
      exitAltScreen tb o =
        ({ tb with isActive := false, events := tb.events ++ teardownEvents },
         none)) := by
  refine ⟨fun hs => ?_, fun hs he => ?_, fun hs he hr => ?_, fun hs he hr => ?_⟩
  · simp [exitAltScreen, ht, ha, hs, logWrite, teardownEvents, List.append_assoc]
  · simp [exitAltScreen, ht, ha, hs, he, logWrite, teardownEvents, List.append_assoc]
  · simp [exitAltScreen, ht, ha, hs, he, hr, logWrite, teardownEvents, List.append_assoc]
  · simp [exitAltScreen, ht, ha, hs, he, hr, logWrite, teardownEvents, List.append_assoc]

/-- Witness for C3 amended: the all-success run performs all three steps in
order and deactivates the surface. -/
theorem exitAltScreen_fail_fast_witness :
    exitAltScreen tbActiveTerminal noFailures =
      ({ tbActiveTerminal with isActive := false, events := teardownEvents }, none) := by
  have h := (exitAltScreen_fail_fast tbActiveTerminal noFailures rfl rfl).2.2.2 rfl rfl rfl
  simpa [tbActiveTerminal] using h

/-- C7: on a destination that is not a terminal, finalOutput hands the
content to the destination byte for byte, with no newline expansion and no
escape sequences, and reports no error of its own (none when the
destination's write succeeds). -/
theorem finalOutput_nonterminal (tb : Termbuf) (content : List Char) (o : FailureOracle)
    (h : tb.isTerminal = false) :
    (finalOutput tb content o).1.events = tb.events ++ [TermEvent.wrote content] ∧
    (o.finalWrite = false → (finalOutput tb content o).2 = none) := by
  have hguard : ¬(tb.isTerminal = true ∧ tb.isActive = true) := by simp [h]
  constructor
  · simp [finalOutput, h, logWrite]
  · intro hf
    simp [finalOutput, h, hf, logWrite]

/-- Witness for C7 on a freshly constructed non-terminal surface. -/
theorem finalOutput_nonterminal_witness :
    (newTermbuf false).isTerminal = false ∧
    (finalOutput (newTermbuf false) ['h', 'i'] noFailures).1.events
        = [TermEvent.wrote ['h', 'i']] ∧
    (finalOutput (newTermbuf false) ['h', 'i'] noFailures).2 = none := by
  have h := finalOutput_nonterminal (newTermbuf false) ['h', 'i'] noFailures rfl
  exact ⟨rfl, by simpa [newTermbuf] using h.1, h.2 rfl⟩

/-- The terminal-surface invariant: active only on a terminal. -/
def termbufInv (tb : Termbuf) : Prop := tb.isActive = true → tb.isTerminal = true

/-- enterAltScreen preserves the invariant: it activates the surface only
behind the terminal guard. -/
theorem enterAltScreen_inv (tb : Termbuf) (o : FailureOracle) (h : termbufInv tb) :
    termbufInv (enterAltScreen tb o).1 := by
  rw [enterAltScreen]
  split_ifs <;> simp_all [termbufInv, logWrite]

/-- clear preserves the invariant. -/
theorem clear_inv (tb : Termbuf) (h : termbufInv tb) : termbufInv (clear tb) := by
  rw [clear]
  split_ifs <;> simp_all [termbufInv, logWrite]

/-- writeToAlt preserves the invariant. -/
theorem writeToAlt_inv (tb : Termbuf) (content : List Char) (o : FailureOracle)
    (h : termbufInv tb) : termbufInv (writeToAlt tb content o).1 := by
  rw [writeToAlt]
  split_ifs <;> simp_all [termbufInv, logWrite]

/-- exitAltScreen preserves the invariant. -/
theorem exitAltScreen_inv (tb : Termbuf) (o : FailureOracle) (h : termbufInv tb) :
    termbufInv (exitAltScreen tb o).1 := by
  rw [exitAltScreen]
  split_ifs <;> simp_all [termbufInv, logWrite]

/-- finalOutput preserves the invariant. -/
theorem finalOutput_inv (tb : Termbuf) (content : List Char) (o : FailureOracle)
    (h : termbufInv tb) : termbufInv (finalOutput tb content o).1 := by
  by_cases h1 : tb.isTerminal = true ∧ tb.isActive = true
  · rw [finalOutput, if_pos h1]
    rcases hx : exitAltScreen tb o with ⟨tb1, e⟩
    have h2 : termbufInv tb1 := by
      have := exitAltScreen_inv tb o h
      rw [hx] at this
      exact this
    cases e <;> simp_all [termbufInv, logWrite]
  · rw [finalOutput, if_neg h1]
    simp_all [termbufInv, logWrite]

/-- C8: a fresh surface is inactive, every operation preserves the
invariant that an active surface sits on a terminal, and on a non-terminal
destination no operation emits any byte except finalOutput, which emits
exactly the raw content. -/
theorem termbuf_invariant (b : Bool) (tb : Termbuf) (o : FailureOracle)
    (content : List Char) (hinv : termbufInv tb) :
    termbufInv (newTermbuf b) ∧ (newTermbuf b).isActive = false ∧
    termbufInv (enterAltScreen tb o).1 ∧
    termbufInv (clear tb) ∧
    termbufInv (writeToAlt tb content o).1 ∧
    termbufInv (exitAltScreen tb o).1 ∧
    termbufInv (finalOutput tb content o).1 ∧
    (tb.isTerminal = false →
      (enterAltScreen tb o).1.events = tb.events ∧
      (clear tb).events = tb.events ∧
      (writeToAlt tb content o).1.events = tb.events ∧
      (exitAltScreen tb o).1.events = tb.events ∧
      (finalOutput tb content o).1.events = tb.events ++ [TermEvent.wrote content]) := by
  refine ⟨by simp [termbufInv, newTermbuf], rfl,
    enterAltScreen_inv tb o hinv, clear_inv tb hinv,
    writeToAlt_inv tb content o hinv, exitAltScreen_inv tb o hinv,
    finalOutput_inv tb content o hinv, fun ht => ?_⟩
  refine ⟨?_, ?_, ?_, ?_, ?_⟩
  · rw [enterAltScreen, if_pos (by simp [ht])]
  · rw [clear, if_neg (by simp [ht])]
  · rw [writeToAlt, if_pos (by simp [ht])]
  · rw [exitAltScreen, if_pos (by simp [ht])]
  · rw [finalOutput, if_neg (by simp [ht])]
    simp [logWrite]

/-- Witness for C8 on a fresh non-terminal surface. -/
theorem termbuf_invariant_witness :
    termbufInv (enterAltScreen (newTermbuf false) noFailures).1 ∧
    (enterAltScreen (newTermbuf false) noFailures).1.events = [] ∧
    (finalOutput (newTermbuf false) ['h'] noFailures).1.events
        = [TermEvent.wrote ['h']] := by
  have h := termbuf_invariant false (newTermbuf false) noFailures ['h']
    (by simp [termbufInv, newTermbuf])
  refine ⟨h.2.2.1, ?_, ?_⟩
  · have := (h.2.2.2.2.2.2.2 rfl).1
    simpa [newTermbuf] using this
  · have := (h.2.2.2.2.2.2.2 rfl).2.2.2.2
    simpa [newTermbuf] using this

/-- C9: shouldRenderUpdate is total: every list access of the backward
fence scan and of the table check stays in bounds (no access ever yields
`none`), and on an empty history the mod-10 rule returns true. -/
theorem shouldRenderUpdate_total (line : List Char) (prev : List (List Char)) :
    (shouldRenderUpdate line prev).isSome = true ∧
    shouldRenderUpdate line [] = some true := by
  constructor
  · rw [shouldRenderUpdate]
    split_ifs with h1 h2 h3 h4
    · simp
    · simp
    · rw [fenceLoop_find prev (prev.length - 1) (Nat.sub_le _ _)]
      simp
    · have hlt : prev.length - 2 < prev.length := by omega
      rcases hx : prev[prev.length - 2]? with _ | pl
      · rw [List.getElem?_eq_getElem hlt] at hx
        exact absurd hx (by simp)
      · simp [apply_ite Option.isSome]
    · simp
  · simp [shouldRenderUpdate]

/-- C10 counterexample: normalizeLineEndings applied to carriage return,
carriage return, line feed leaves a carriage-return-line-feed pair in its
result: the single left-to-right ReplaceAll pass can re-create the pattern
from the leftover carriage return and the just-written line feed. -/
theorem normalizeLineEndings_crlf_counterexample :
    containsSub ['\r', '\n'] (normalizeLineEndings ['\r', '\r', '\n']) = true := by
  have h1 : normalizeLineEndings ['\r', '\r', '\n'] = ['\r', '\n'] := by
    unfold normalizeLineEndings
    have h2 : replaceCRLF ['\r', '\r', '\n'] = ['\r', '\n'] := by decide
    rw [h2, collapseLoop]
    norm_num
    decide
  rw [h1]
  decide

/-- Every run of the collapsing loop ends with no three consecutive line
feeds left. -/
theorem collapseLoop_no_triple (t : List Char) :
    containsSub tripleNL (collapseLoop t) = false := by
  induction t using collapseLoop.induct with
  | case1 t h ih =>
    rw [collapseLoop, dif_pos h]
    exact ih
  | case2 t h =>
    rw [collapseLoop, dif_neg h]
    simpa using h

/-- C10 amended: normalizeLineEndings terminates on every input, each
collapsing pass on a string still holding the pattern strictly shortening
it, and its result holds no three consecutive line feeds; the result can
still hold a carriage-return-line-feed pair. -/
theorem normalizeLineEndings_no_triple (s : List Char) :
    containsSub tripleNL (normalizeLineEndings s) = false ∧
    (containsSub tripleNL s = true → (collapsePass s).length < s.length) := by
  exact ⟨collapseLoop_no_triple (replaceCRLF s), collapsePass_length_lt s⟩

/-- Witness for C10 amended at the triple line feed itself. -/
theorem normalizeLineEndings_no_triple_witness :
    containsSub tripleNL (normalizeLineEndings tripleNL) = false ∧
    (collapsePass tripleNL).length < tripleNL.length :=
  ⟨(normalizeLineEndings_no_triple tripleNL).1,
   (normalizeLineEndings_no_triple tripleNL).2 (by decide)⟩
